import Mathlib

/-!
Shallow embedding of the hoisin secret-validator action.

Sources embedded:
* `src/validateSecrets.ts` — `validateSecret` (the validation engine) and the
  CLI entry point (argument parsing loop, usage error, exit code).
* `src/index.ts` — `run` (the orchestrator): file-existence check, TOML parse
  result, shape check `!secretsConfig || !secretsConfig.secrets`, the per-rule
  loop, and the final pass/fail report.

External collaborators are modelled as parameters:
* the JavaScript regex engine (`new RegExp` / `regex.test`) is an abstract
  `RegexEngine`: `compile` returns `Except errMsg compiled` mirroring the
  throwing constructor, `test` is the boolean match;
* the file system and TOML parser collapse into a `Bool` (does the file
  exist) and an `Except String JsValue` (parse error or parsed document);
* the process environment is a partial map `String → Option String`;
* the `@actions/core` reporting sink is reified as the list of `CoreCall`
  values emitted, in order.

JavaScript-value behaviour that the orchestrator relies on (truthiness of the
parsed `secrets` entry, `Object.entries` on non-objects, string coercion of a
non-string pattern inside a template literal / `new RegExp`) is embedded in
the small `JsValue` type.
-/

namespace Hoisin

/-- Error classification of a per-rule outcome, from the spec's
`ValidationOutcome` data model (none | pattern-compile-error |
value-missing | pattern-mismatch). -/
inductive ErrorKind where
  | none
  | patternCompileError
  | valueMissing
  | patternMismatch
deriving DecidableEq, Repr

/-- Abstract host regex engine: `compile` models `new RegExp(pattern)`
(`Except.error` carries the thrown error's `.message`), `test` models
`regex.test(value)`. -/
structure RegexEngine (ρ : Type) where
  compile : String → Except String ρ
  test : ρ → String → Bool

/-- Result of checking one rule: the boolean the source function returns,
the line it logs via `console.log`, and the spec's error classification of
the branch taken. -/
structure ValidationOutcome where
  name : String
  matched : Bool
  message : String
  errorKind : ErrorKind
deriving DecidableEq, Repr

/-- `validateSecret` from `src/validateSecrets.ts`, with the `console.log`
side channel reified as the `message` field.  The source compiles the
pattern inside `try`, returns `false` logging the ❌ line when
`!regex.test(value)`, returns `true` logging the ✅ line otherwise, and the
`catch` branch returns `false` logging the ⚠️ line built from the thrown
error's message. -/
def validateSecretOutcome {ρ : Type} (E : RegexEngine ρ) (name value pattern : String) :
    ValidationOutcome :=
  match E.compile pattern with
  | Except.ok regex =>
    if E.test regex value = false then
      { name := name, matched := false
        message := "❌ Secret '" ++ name ++ "' does not match the required pattern: " ++ pattern
        errorKind := ErrorKind.patternMismatch }
    else
      { name := name, matched := true
        message := "✅ Secret '" ++ name ++ "' is valid."
        errorKind := ErrorKind.none }
  | Except.error e =>
    { name := name, matched := false
      message := "⚠️ Error validating secret '" ++ name ++ "': " ++ e
      errorKind := ErrorKind.patternCompileError }

/-- The boolean actually returned to the caller of `validateSecret`. -/
def validateSecret {ρ : Type} (E : RegexEngine ρ) (name value pattern : String) : Bool :=
  (validateSecretOutcome E name value pattern).matched

/-- A parsed structured-text (TOML) value, as the JavaScript object the
`toml` parser hands back to `src/index.ts`. -/
inductive JsValue where
  | vStr (s : String)
  | vNum (n : Int)
  | vBool (b : Bool)
  | vTable (entries : List (String × JsValue))

/-- JavaScript truthiness, used by `!secretsConfig || !secretsConfig.secrets`. -/
def JsValue.truthy : JsValue → Bool
  | .vStr s => s != ""
  | .vNum n => n != 0
  | .vBool b => b
  | .vTable _ => true

/-- JavaScript property access `obj[key]`: `Option.none` models `undefined`. -/
def JsValue.get (doc : JsValue) (key : String) : Option JsValue :=
  match doc with
  | .vTable kvs => kvs.lookup key
  | _ => Option.none

/-- JavaScript `Object.entries`: own enumerable entries of a table, the
indexed characters of a string, and nothing for number/boolean primitives. -/
def JsValue.entries : JsValue → List (String × JsValue)
  | .vTable kvs => kvs
  | .vStr s => s.toList.enum.map (fun p => (toString p.1, JsValue.vStr (String.mk [p.2])))
  | _ => []

/-- JavaScript string coercion, applied to the rule's pattern value inside
the template literal and `new RegExp`. -/
def JsValue.toStr : JsValue → String
  | .vStr s => s
  | .vNum n => toString n
  | .vBool b => if b then "true" else "false"
  | .vTable _ => "[object Object]"

/-- One call into the `@actions/core` reporting sink. -/
inductive CoreCall where
  | debug (msg : String)
  | info (msg : String)
  | warning (msg : String)
  | error (msg : String)
  | setFailed (msg : String)
deriving DecidableEq, Repr

/-- The message carried by a reporting call. -/
def CoreCall.msg : CoreCall → String
  | .debug m => m
  | .info m => m
  | .warning m => m
  | .error m => m
  | .setFailed m => m

/-- Message of the fatal shape-check failure in `src/index.ts`. -/
def invalidShapeMsg : String := "Invalid configuration file format. Missing \"secrets\" section."

/-- Overall failure message of `src/index.ts`. -/
def overallFailMsg : String := "One or more secrets failed validation"

/-- Overall success message of `src/index.ts`. -/
def overallOkMsg : String := "All secrets validated successfully"

/-- One iteration of the rule loop in `src/index.ts`: environment lookup with
the JS-falsy check `!secretValue` (absent or empty string), the warning path,
otherwise the debug line, the captured-and-trimmed `console.log` output
re-emitted via `core.info`, and the per-rule `core.error` when validation
fails.  Returns the calls emitted and whether `hasFailures` was set. -/
def processRule {ρ : Type} (E : RegexEngine ρ) (env : String → Option String)
    (name : String) (regexVal : JsValue) : List CoreCall × Bool :=
  match env name with
  | Option.none =>
    ([CoreCall.warning ("Secret \"" ++ name ++ "\" not found in environment.")], true)
  | Option.some secretValue =>
    if secretValue = "" then
      ([CoreCall.warning ("Secret \"" ++ name ++ "\" not found in environment.")], true)
    else
      let out := validateSecretOutcome E name secretValue regexVal.toStr
      let validationOutput := out.message ++ "\n"
      let logCalls :=
        CoreCall.debug ("Validating secret: " ++ name ++ " with pattern: " ++ regexVal.toStr) ::
        (if validationOutput = "" then [] else [CoreCall.info validationOutput.trim])
      if out.matched then (logCalls, false)
      else (logCalls ++ [CoreCall.error ("Validation failed for secret: " ++ name)], true)

/-- The `for (const [name, regex] of Object.entries(...))` loop: calls emitted
by every iteration in order, and the accumulated `hasFailures` flag. -/
def runRules {ρ : Type} (E : RegexEngine ρ) (env : String → Option String) :
    List (String × JsValue) → List CoreCall × Bool
  | [] => ([], false)
  | (name, rv) :: rest =>
    let r := processRule E env name rv
    let rr := runRules E env rest
    (r.1 ++ rr.1, r.2 || rr.2)

/-- `run` from `src/index.ts`: the initial debug line, the `existsSync`
check, the TOML parse result (a parser exception reaches the outer `catch`,
which prefixes `Secret validation failed: `), the shape check
`!secretsConfig || !secretsConfig.secrets`, the `Found N secrets to
validate` info line, the rule loop, and the final report. -/
def run {ρ : Type} (E : RegexEngine ρ) (fileExists : Bool)
    (parsed : Except String JsValue) (env : String → Option String)
    (tomlFilePath : String) : List CoreCall :=
  CoreCall.debug ("Looking for TOML configuration at: " ++ tomlFilePath) ::
  (if fileExists = false then
    [CoreCall.setFailed ("TOML file not found at path: " ++ tomlFilePath)]
  else
    match parsed with
    | Except.error e => [CoreCall.setFailed ("Secret validation failed: " ++ e)]
    | Except.ok secretsConfig =>
      match secretsConfig.get "secrets" with
      | Option.none => [CoreCall.setFailed invalidShapeMsg]
      | Option.some secretsVal =>
        if secretsConfig.truthy = false ∨ secretsVal.truthy = false then
          [CoreCall.setFailed invalidShapeMsg]
        else
          let rules := secretsVal.entries
          let rr := runRules E env rules
          CoreCall.info ("Found " ++ toString rules.length ++ " secrets to validate") ::
          rr.1 ++
          [if rr.2 then CoreCall.setFailed overallFailMsg else CoreCall.info overallOkMsg])

/-- A rule fails when its value is missing (absent or empty, the JS-falsy
check) or when `validateSecret` returns `false` on it. -/
def ruleFails {ρ : Type} (E : RegexEngine ρ) (env : String → Option String)
    (rule : String × JsValue) : Bool :=
  match env rule.1 with
  | Option.none => true
  | Option.some v => if v = "" then true else !(validateSecret E rule.1 v rule.2.toStr)

/-- Usage line printed to stderr by the CLI entry point. -/
def usageMsg : String :=
  "Missing required arguments. Usage: node validateSecrets.js --name NAME --value VALUE --regex PATTERN"

/-- The CLI argument-parsing loop of `src/validateSecrets.ts`: a flag
followed by a value updates the corresponding variable and skips the value;
a flag in final position (no `i + 1 < args.length`) is ignored. -/
def parseArgs : List String → String → String → String → String × String × String
  | [], name, value, regex => (name, value, regex)
  | a :: rest, name, value, regex =>
    if a = "--name" then
      match rest with
      | b :: rest2 => parseArgs rest2 b value regex
      | [] => (name, value, regex)
    else if a = "--value" then
      match rest with
      | b :: rest2 => parseArgs rest2 name b regex
      | [] => (name, value, regex)
    else if a = "--regex" then
      match rest with
      | b :: rest2 => parseArgs rest2 name value b
      | [] => (name, value, regex)
    else parseArgs rest name value regex

/-- Observable result of a CLI invocation: the process exit code and the
line written to stderr, if any. -/
structure CliResult where
  exitCode : Nat
  stderrLine : Option String
deriving DecidableEq, Repr

/-- The `require.main === module` block of `src/validateSecrets.ts`: parse
the arguments from empty-string defaults, exit 1 with the usage line when
`!name || !value || !regex`, otherwise exit with `result ? 0 : 1`. -/
def cliMain {ρ : Type} (E : RegexEngine ρ) (args : List String) : CliResult :=
  let p := parseArgs args "" "" ""
  if p.1 = "" ∨ p.2.1 = "" ∨ p.2.2 = "" then
    { exitCode := 1, stderrLine := Option.some usageMsg }
  else
    { exitCode := if validateSecret E p.1 p.2.1 p.2.2 then 0 else 1
      stderrLine := Option.none }

/-- A tiny concrete regex engine used only to exhibit witnesses: a pattern
starting with `(` fails to compile, any other pattern matches exactly the
value equal to it. -/
def toyEngine : RegexEngine String where
  compile p :=
    match p.toList with
    | '(' :: _ => Except.error ("Invalid regular expression: missing ) in " ++ p)
    | _ => Except.ok p
  test r v := r == v

/-- C1: `validateSecret` returns `true` iff the pattern compiles and the
compiled regex's test of the value succeeds (the test is the engine's own,
with no anchoring added by the function), and it returns `false` whenever
the pattern fails to compile; the function is total, so no error escapes. -/
theorem validateSecret_true_iff {ρ : Type} (E : RegexEngine ρ) (name value pattern : String) :
    (validateSecret E name value pattern = true ↔
      ∃ r, E.compile pattern = Except.ok r ∧ E.test r value = true) ∧
    (∀ e, E.compile pattern = Except.error e → validateSecret E name value pattern = false) := by
  unfold validateSecret validateSecretOutcome
  cases hc : E.compile pattern with
  | ok r =>
    refine ⟨?_, by intro e he; exact absurd he (by simp)⟩
    cases ht : E.test r value <;> simp [ht]
  | error e => simp

theorem validateSecret_true_iff_witness :
    validateSecret toyEngine "A" "v" "v" = true ∧
    validateSecret toyEngine "B" "any" "(x" = false := by
  constructor
  · exact (validateSecret_true_iff toyEngine "A" "v" "v").1.mpr ⟨"v", rfl, rfl⟩
  · exact (validateSecret_true_iff toyEngine "B" "any" "(x").2
      ("Invalid regular expression: missing ) in (x") rfl

/-- C5: when the pattern fails to compile, `validateSecret` catches the
failure internally (the embedding is a total function: nothing propagates)
and produces `matched = false` with exactly the message
`⚠️ Error validating secret '<name>': <underlying compiler message>`. -/
theorem validateSecret_compile_error_outcome {ρ : Type} (E : RegexEngine ρ)
    (name value pattern e : String) (h : E.compile pattern = Except.error e) :
    validateSecretOutcome E name value pattern =
      { name := name, matched := false
        message := "⚠️ Error validating secret '" ++ name ++ "': " ++ e
        errorKind := ErrorKind.patternCompileError } := by
  unfold validateSecretOutcome
  rw [h]

theorem validateSecret_compile_error_outcome_witness :
    validateSecretOutcome toyEngine "B" "any" "(unclosed[parenthesis" =
      { name := "B", matched := false
        message := "⚠️ Error validating secret 'B': Invalid regular expression: missing ) in (unclosed[parenthesis"
        errorKind := ErrorKind.patternCompileError } :=
  validateSecret_compile_error_outcome toyEngine "B" "any" "(unclosed[parenthesis"
    ("Invalid regular expression: missing ) in (unclosed[parenthesis") rfl

/-- C9: an outcome with `matched = true` has `errorKind = none`: the `true`
result arises only in the branch where the pattern compiled and the regex
test succeeded, with the ✅ message, never from the compile-error path. -/
theorem validateSecret_matched_no_error {ρ : Type} (E : RegexEngine ρ)
    (name value pattern : String)
    (h : (validateSecretOutcome E name value pattern).matched = true) :
    (validateSecretOutcome E name value pattern).errorKind = ErrorKind.none ∧
    (∃ r, E.compile pattern = Except.ok r ∧ E.test r value = true) ∧
    (validateSecretOutcome E name value pattern).message =
      "✅ Secret '" ++ name ++ "' is valid." := by
  revert h
  unfold validateSecretOutcome
  cases hc : E.compile pattern with
  | ok r =>
    cases ht : E.test r value with
    | false => simp [ht]
    | true => intro _; exact ⟨by simp [ht], ⟨r, rfl, ht⟩, by simp [ht]⟩
  | error e => simp

theorem validateSecret_matched_no_error_witness :
    (validateSecretOutcome toyEngine "A" "v" "v").errorKind = ErrorKind.none ∧
    (∃ r, toyEngine.compile "v" = Except.ok r ∧ toyEngine.test r "v" = true) ∧
    (validateSecretOutcome toyEngine "A" "v" "v").message =
      "✅ Secret '" ++ "A" ++ "' is valid." :=
  validateSecret_matched_no_error toyEngine "A" "v" "v" rfl

/-- Helper: a compile error forces `validateSecret` to return `false`. -/
theorem validateSecret_of_compile_error {ρ : Type} (E : RegexEngine ρ)
    (name value pattern e : String) (h : E.compile pattern = Except.error e) :
    validateSecret E name value pattern = false := by
  unfold validateSecret validateSecretOutcome
  rw [h]

/-- Helper: the failure flag of one loop iteration is exactly `ruleFails`. -/
theorem processRule_snd {ρ : Type} (E : RegexEngine ρ) (env : String → Option String)
    (name : String) (rv : JsValue) :
    (processRule E env name rv).2 = ruleFails E env (name, rv) := by
  unfold processRule ruleFails validateSecret
  cases env name with
  | none => rfl
  | some v =>
    by_cases hv : v = ""
    · simp [hv]
    · cases hm : (validateSecretOutcome E name v (JsValue.toStr rv)).matched <;> simp [hv, hm]

/-- Helper: one loop iteration never calls `setFailed`. -/
theorem processRule_no_setFailed {ρ : Type} (E : RegexEngine ρ) (env : String → Option String)
    (name : String) (rv : JsValue) (m : String) :
    CoreCall.setFailed m ∉ (processRule E env name rv).1 := by
  unfold processRule
  cases env name with
  | none => simp
  | some v =>
    by_cases hv : v = ""
    · simp [hv]
    · cases hm : (validateSecretOutcome E name v (JsValue.toStr rv)).matched <;>
        simp [hv, hm]

/-- Helper: the accumulated failure flag of the loop is `any ruleFails`. -/
theorem runRules_snd {ρ : Type} (E : RegexEngine ρ) (env : String → Option String)
    (rules : List (String × JsValue)) :
    (runRules E env rules).2 = rules.any (ruleFails E env) := by
  induction rules with
  | nil => rfl
  | cons r rest ih =>
    obtain ⟨name, rv⟩ := r
    simp [runRules, List.any_cons, ← ih, processRule_snd]

/-- Helper: the loop body as a whole never calls `setFailed`. -/
theorem runRules_no_setFailed {ρ : Type} (E : RegexEngine ρ) (env : String → Option String)
    (rules : List (String × JsValue)) (m : String) :
    CoreCall.setFailed m ∉ (runRules E env rules).1 := by
  induction rules with
  | nil => simp [runRules]
  | cons r rest ih =>
    obtain ⟨name, rv⟩ := r
    simp only [runRules, List.mem_append]
    rintro (h | h)
    · exact processRule_no_setFailed E env name rv m h
    · exact ih h

/-- Helper: shape of the orchestrator's output on a well-formed configuration
(file exists, parse succeeded, truthy document with a truthy `secrets`
entry). -/
theorem run_wellformed {ρ : Type} (E : RegexEngine ρ) (doc sv : JsValue)
    (env : String → Option String) (path : String)
    (hget : doc.get "secrets" = Option.some sv)
    (hdoc : doc.truthy = true) (hsv : sv.truthy = true) :
    run E true (Except.ok doc) env path =
      CoreCall.debug ("Looking for TOML configuration at: " ++ path) ::
      CoreCall.info ("Found " ++ toString sv.entries.length ++ " secrets to validate") ::
      ((runRules E env sv.entries).1 ++
       [if (runRules E env sv.entries).2 then CoreCall.setFailed overallFailMsg
        else CoreCall.info overallOkMsg]) := by
  simp [run, hget, hdoc, hsv]

/-- Helper: on a well-formed configuration, the overall failure signal is
emitted iff some rule fails. -/
theorem mem_setFailed_run_iff {ρ : Type} (E : RegexEngine ρ) (doc sv : JsValue)
    (env : String → Option String) (path : String)
    (hget : doc.get "secrets" = Option.some sv)
    (hdoc : doc.truthy = true) (hsv : sv.truthy = true) :
    (CoreCall.setFailed overallFailMsg ∈ run E true (Except.ok doc) env path ↔
      sv.entries.any (ruleFails E env) = true) := by
  rw [run_wellformed E doc sv env path hget hdoc hsv, ← runRules_snd]
  cases hf : (runRules E env sv.entries).2 <;>
    simp [hf, runRules_no_setFailed E env sv.entries overallFailMsg]

/-- Concrete fixture: environment binding only `A` to `"v"`. -/
def witEnv : String → Option String := fun n => if n = "A" then Option.some "v" else Option.none

/-- Concrete fixture: configuration document with a single rule `A = "v"`. -/
def witDoc : JsValue := JsValue.vTable [("secrets", JsValue.vTable [("A", JsValue.vStr "v")])]

/-- Concrete fixture: the `secrets` table of `witDoc`. -/
def witSv : JsValue := JsValue.vTable [("A", JsValue.vStr "v")]

/-- Concrete fixture: an empty environment. -/
def missEnv : String → Option String := fun _ => Option.none

/-- Concrete fixture: configuration with a single rule whose name is bound
nowhere in `missEnv`. -/
def missDoc : JsValue :=
  JsValue.vTable [("secrets", JsValue.vTable [("MISSING", JsValue.vStr "^.+$")])]

/-- C2: on a well-formed configuration the orchestrator calls `setFailed`
with `One or more secrets failed validation` iff at least one rule failed
(value missing/empty, or `validateSecret` returned `false`); when no rule
failed it emits `All secrets validated successfully` and never calls
`setFailed`. -/
theorem run_overall_signal {ρ : Type} (E : RegexEngine ρ) (doc sv : JsValue)
    (env : String → Option String) (path : String)
    (hget : doc.get "secrets" = Option.some sv)
    (hdoc : doc.truthy = true) (hsv : sv.truthy = true) :
    (CoreCall.setFailed overallFailMsg ∈ run E true (Except.ok doc) env path ↔
      sv.entries.any (ruleFails E env) = true) ∧
    (sv.entries.any (ruleFails E env) = false →
      CoreCall.info overallOkMsg ∈ run E true (Except.ok doc) env path ∧
      ∀ m, CoreCall.setFailed m ∉ run E true (Except.ok doc) env path) := by
  refine ⟨mem_setFailed_run_iff E doc sv env path hget hdoc hsv, fun hnone => ?_⟩
  have hf : (runRules E env sv.entries).2 = false := by rw [runRules_snd]; exact hnone
  rw [run_wellformed E doc sv env path hget hdoc hsv, hf]
  constructor
  · simp
  · intro m
    simp [runRules_no_setFailed E env sv.entries m]

theorem run_overall_signal_witness :
    CoreCall.info overallOkMsg ∈ run toyEngine true (Except.ok witDoc) witEnv "cfg.toml" :=
  ((run_overall_signal toyEngine witDoc witSv witEnv "cfg.toml" rfl rfl rfl).2 (by decide)).1

/-- C3 counterexample: with the rule `MISSING = "^.+$"` and an empty
environment, the orchestrator does record a failure, but no emitted call
carries the message `❌ Secret 'MISSING' is missing.`; the recorded message
is the warning `Secret "MISSING" not found in environment.`. -/
theorem run_missing_message_counterexample :
    ruleFails toyEngine missEnv ("MISSING", JsValue.vStr "^.+$") = true ∧
    ((run toyEngine true (Except.ok missDoc) missEnv "cfg.toml").all
      (fun c => c.msg != "❌ Secret 'MISSING' is missing.")) = true ∧
    CoreCall.warning ("Secret \"MISSING\" not found in environment.") ∈
      run toyEngine true (Except.ok missDoc) missEnv "cfg.toml" := by
  decide

/-- C3 amended: for a rule whose name is absent from the environment or
bound to the empty string, the loop body records a failure with the warning
`Secret "<name>" not found in environment.` and does not invoke the
validation engine (its result does not depend on the engine at all). -/
theorem processRule_missing_value {ρ ρ2 : Type} (E : RegexEngine ρ) (E2 : RegexEngine ρ2)
    (env : String → Option String) (name : String) (rv : JsValue)
    (h : env name = Option.none ∨ env name = Option.some "") :
    processRule E env name rv =
      ([CoreCall.warning ("Secret \"" ++ name ++ "\" not found in environment.")], true) ∧
    processRule E env name rv = processRule E2 env name rv := by
  cases h with
  | inl h => unfold processRule; rw [h]; exact ⟨rfl, rfl⟩
  | inr h => unfold processRule; rw [h]; simp

theorem processRule_missing_value_witness :
    processRule toyEngine missEnv "MISSING" (JsValue.vStr "^.+$") =
      ([CoreCall.warning ("Secret \"" ++ "MISSING" ++ "\" not found in environment.")], true) ∧
    processRule toyEngine missEnv "MISSING" (JsValue.vStr "^.+$") =
      processRule toyEngine missEnv "MISSING" (JsValue.vStr "^.+$") :=
  processRule_missing_value toyEngine toyEngine missEnv "MISSING" (JsValue.vStr "^.+$")
    (Or.inl rfl)

/-- C4 counterexample: a document whose `secrets` entry is present but is
the number `5` — not a string-to-string mapping — passes the shape check:
the run emits no invalid-shape failure (no `setFailed` at all) and reports
overall success over zero rules. -/
theorem shape_check_counterexample :
    run toyEngine true (Except.ok (JsValue.vTable [("secrets", JsValue.vNum 5)]))
        missEnv "cfg.toml" =
      [CoreCall.debug "Looking for TOML configuration at: cfg.toml",
       CoreCall.info "Found 0 secrets to validate",
       CoreCall.info "All secrets validated successfully"] := by
  decide

/-- C4 amended: the loader fails with the invalid-shape error when the
parsed document has no `secrets` key or its `secrets` value is JS-falsy;
it does not check that a present truthy `secrets` entry is a
string-to-string mapping.  When it does fail, the run aborts with a single
failure signal and no rule is evaluated. -/
theorem run_invalid_shape {ρ : Type} (E : RegexEngine ρ) (doc : JsValue)
    (env : String → Option String) (path : String)
    (h : doc.get "secrets" = Option.none ∨
      ∃ sv, doc.get "secrets" = Option.some sv ∧ sv.truthy = false) :
    run E true (Except.ok doc) env path =
      [CoreCall.debug ("Looking for TOML configuration at: " ++ path),
       CoreCall.setFailed invalidShapeMsg] := by
  cases h with
  | inl h => simp [run, h]
  | inr h =>
    obtain ⟨sv, hg, hf⟩ := h
    simp [run, hg, hf]

theorem run_invalid_shape_witness :
    run toyEngine true (Except.ok (JsValue.vTable [])) missEnv "cfg.toml" =
      [CoreCall.debug ("Looking for TOML configuration at: " ++ "cfg.toml"),
       CoreCall.setFailed invalidShapeMsg] :=
  run_invalid_shape toyEngine (JsValue.vTable []) missEnv "cfg.toml" (Or.inl rfl)

/-- C6: when the configuration file does not exist, or it parses to a
document without a `secrets` key, the run emits exactly the initial debug
line and one `setFailed` — no per-rule processing, and the output is
independent of both the environment and the regex engine. -/
theorem run_fatal_single_signal {ρ ρ2 : Type} (E : RegexEngine ρ) (E2 : RegexEngine ρ2)
    (parsed : Except String JsValue) (doc : JsValue)
    (env env2 : String → Option String) (path : String)
    (hdoc : parsed = Except.ok doc) (hshape : doc.get "secrets" = Option.none) :
    (run E false parsed env path =
      [CoreCall.debug ("Looking for TOML configuration at: " ++ path),
       CoreCall.setFailed ("TOML file not found at path: " ++ path)] ∧
     run E false parsed env path = run E2 false parsed env2 path) ∧
    (run E true parsed env path =
      [CoreCall.debug ("Looking for TOML configuration at: " ++ path),
       CoreCall.setFailed invalidShapeMsg] ∧
     run E true parsed env path = run E2 true parsed env2 path) := by
  subst hdoc
  refine ⟨⟨rfl, rfl⟩, ?_, ?_⟩ <;> simp [run, hshape]

theorem run_fatal_single_signal_witness :
    run toyEngine false (Except.ok (JsValue.vTable [])) missEnv "cfg.toml" =
      [CoreCall.debug ("Looking for TOML configuration at: " ++ "cfg.toml"),
       CoreCall.setFailed ("TOML file not found at path: " ++ "cfg.toml")] :=
  ((run_fatal_single_signal toyEngine toyEngine (Except.ok (JsValue.vTable []))
      (JsValue.vTable []) missEnv missEnv "cfg.toml" rfl rfl).1).1

/-- Helper: `List.any` is invariant under permutation. -/
theorem perm_any_eq {α : Type} (p : α → Bool) {l₁ l₂ : List α} (h : l₁.Perm l₂) :
    l₁.any p = l₂.any p := by
  induction h with
  | nil => rfl
  | cons a h ih => simp [List.any_cons, ih]
  | swap a b l => simp [List.any_cons, Bool.or_left_comm]
  | trans h₁ h₂ ih₁ ih₂ => exact ih₁.trans ih₂

/-- Helper: the last element of a list of the orchestrator's output shape. -/
theorem getLast_cons_cons_append {α : Type} (x y : α) (l : List α) (a : α) :
    (x :: y :: (l ++ [a])).getLast? = Option.some a := by
  rw [show x :: y :: (l ++ [a]) = (x :: y :: l) ++ [a] by simp]
  exact List.getLast?_concat _

/-- C8: the orchestrator's aggregate outcome — the final report call (its
overall success or overall failure signal) and whether the overall failure
signal is emitted at all — is invariant under every permutation of the
configuration's rule list. -/
theorem run_aggregate_perm_invariant {ρ : Type} (E : RegexEngine ρ)
    (env : String → Option String) (path : String)
    (kvs1 kvs2 : List (String × JsValue)) (hp : kvs1.Perm kvs2) :
    ((CoreCall.setFailed overallFailMsg ∈
        run E true (Except.ok (JsValue.vTable [("secrets", JsValue.vTable kvs1)])) env path) ↔
      (CoreCall.setFailed overallFailMsg ∈
        run E true (Except.ok (JsValue.vTable [("secrets", JsValue.vTable kvs2)])) env path)) ∧
    (run E true (Except.ok (JsValue.vTable [("secrets", JsValue.vTable kvs1)])) env path).getLast? =
      (run E true (Except.ok (JsValue.vTable [("secrets", JsValue.vTable kvs2)])) env path).getLast? := by
  have hany : kvs1.any (ruleFails E env) = kvs2.any (ruleFails E env) := perm_any_eq _ hp
  constructor
  · rw [mem_setFailed_run_iff E (JsValue.vTable [("secrets", JsValue.vTable kvs1)])
        (JsValue.vTable kvs1) env path rfl rfl rfl,
      mem_setFailed_run_iff E (JsValue.vTable [("secrets", JsValue.vTable kvs2)])
        (JsValue.vTable kvs2) env path rfl rfl rfl]
    simp only [JsValue.entries]
    rw [hany]
  · rw [run_wellformed E (JsValue.vTable [("secrets", JsValue.vTable kvs1)])
        (JsValue.vTable kvs1) env path rfl rfl rfl,
      run_wellformed E (JsValue.vTable [("secrets", JsValue.vTable kvs2)])
        (JsValue.vTable kvs2) env path rfl rfl rfl,
      getLast_cons_cons_append, getLast_cons_cons_append,
      runRules_snd, runRules_snd]
    simp only [JsValue.entries]
    simp only [hany]

/-- Concrete fixture: a two-rule list and its transposition. -/
def kvsA : List (String × JsValue) := [("A", JsValue.vStr "v"), ("B", JsValue.vStr "w")]

/-- Concrete fixture: `kvsA` with its two rules swapped. -/
def kvsB : List (String × JsValue) := [("B", JsValue.vStr "w"), ("A", JsValue.vStr "v")]

theorem run_aggregate_perm_invariant_witness :
    (run toyEngine true (Except.ok (JsValue.vTable [("secrets", JsValue.vTable kvsA)]))
        witEnv "cfg.toml").getLast? =
      (run toyEngine true (Except.ok (JsValue.vTable [("secrets", JsValue.vTable kvsB)]))
        witEnv "cfg.toml").getLast? :=
  (run_aggregate_perm_invariant toyEngine witEnv "cfg.toml" kvsA kvsB
    (List.Perm.swap ("B", JsValue.vStr "w") ("A", JsValue.vStr "v") [])).2

/-- C7: in single-check (CLI) mode, with all three arguments parsed
non-empty the process exits 0 exactly when `validateSecret` reports a
match and 1 otherwise, a pattern compile error yields exit code 1 (hence
non-zero); when any of the three is missing the process exits 1 with the
usage line on stderr, which begins `Missing required arguments. Usage:`
and names the `--name NAME --value VALUE --regex PATTERN` form. -/
theorem cli_behavior {ρ : Type} (E : RegexEngine ρ) (args : List String)
    (name value regex : String)
    (hp : parseArgs args "" "" "" = (name, value, regex)) :
    (name ≠ "" → value ≠ "" → regex ≠ "" →
      cliMain E args =
        { exitCode := if validateSecret E name value regex then 0 else 1
          stderrLine := Option.none } ∧
      (∀ e, E.compile regex = Except.error e →
        cliMain E args =
          { exitCode := 1, stderrLine := Option.none })) ∧
    ((name = "" ∨ value = "" ∨ regex = "") →
      cliMain E args = { exitCode := 1, stderrLine := Option.some usageMsg } ∧
      usageMsg = "Missing required arguments. Usage:" ++
        " node validateSecrets.js --name NAME --value VALUE --regex PATTERN") := by
  constructor
  · intro hn hv hr
    have hc : ¬(name = "" ∨ value = "" ∨ regex = "") := by
      rintro (h | h | h) <;> [exact hn h; exact hv h; exact hr h]
    constructor
    · simp [cliMain, hp, hc]
    · intro e he
      simp [cliMain, hp, hc, validateSecret_of_compile_error E name value regex e he]
  · intro hc
    refine ⟨?_, rfl⟩
    simp [cliMain, hp, hc]

theorem cli_behavior_witness :
    cliMain toyEngine ["--name", "A", "--value", "v", "--regex", "v"] =
      { exitCode := if validateSecret toyEngine "A" "v" "v" then 0 else 1
        stderrLine := Option.none } ∧
    cliMain toyEngine ["--name", "A", "--value", "v", "--regex", "(x"] =
      { exitCode := 1, stderrLine := Option.none } ∧
    cliMain toyEngine ["--name", "A"] =
      { exitCode := 1, stderrLine := Option.some usageMsg } := by
  refine ⟨?_, ?_, ?_⟩
  · exact ((cli_behavior toyEngine ["--name", "A", "--value", "v", "--regex", "v"] "A" "v" "v" rfl).1 (by decide) (by decide) (by decide)).1
  · exact ((cli_behavior toyEngine ["--name", "A", "--value", "v", "--regex", "(x"] "A" "v" "(x" rfl).1 (by decide) (by decide) (by decide)).2
      ("Invalid regular expression: missing ) in (x") rfl
  · exact ((cli_behavior toyEngine ["--name", "A"] "A" "" "" rfl).2 (Or.inr (Or.inl rfl))).1

/-- C10: in CLI mode an argument supplied as the empty string (here
`--value ""`) behaves exactly like an absent argument: the usage line goes
to stderr, the exit code is 1, and `validateSecret` is never consulted (the
result is the same for every engine and equals the result with the flag
omitted). -/
theorem cli_empty_value_like_absent {ρ ρ2 : Type} (E : RegexEngine ρ) (E2 : RegexEngine ρ2)
    (name regex : String) :
    cliMain E ["--name", name, "--value", "", "--regex", regex] =
      { exitCode := 1, stderrLine := Option.some usageMsg } ∧
    cliMain E ["--name", name, "--value", "", "--regex", regex] =
      cliMain E2 ["--name", name, "--regex", regex] := by
  have h1 : parseArgs ["--name", name, "--value", "", "--regex", regex] "" "" "" =
      (name, "", regex) := rfl
  have h2 : parseArgs ["--name", name, "--regex", regex] "" "" "" = (name, "", regex) := rfl
  constructor
  · simp [cliMain, h1]
  · simp [cliMain, h1, h2]

end Hoisin
